import Mathlib

/-!
Verification development for the Smart_Meal_Planner recommendation engine
(`backend/filters.py`, `backend/pipeline.py`, `backend/similarity_engine.py`).

Modelling conventions:
* A pandas `DataFrame` of recipes is a `List Recipe`; the pandas row labels are
  the positions `0, 1, ...` (the CSV is read with a fresh `RangeIndex`), so a
  `pd.Index` of surviving rows is a `List Nat` of positions.
* Python numbers are modelled by `ℚ` (the claims are about order and equality,
  for which rationals are a faithful stand-in for the finite floats involved);
  values that can be missing (`NaN`) in a column are `Option ℚ` and the pandas
  `fillna` / NaN-comparison behaviour is modelled explicitly at each use site.
* `DataFrame.sort_values(by=k, ascending=False)` is modelled after pandas
  `nargsort`: reverse the rows, argsort ascending, reverse the result, with
  rows whose key is missing appended at the end (`na_position="last"`).  The
  default argsort kind (numpy quicksort) leaves the order of equal keys
  unspecified; the model fixes one concrete resolution (an insertion sort),
  and every property proved here is insensitive to the order of equal keys.
* The similarity-score vector produced by `sklearn.metrics.pairwise.
  cosine_similarity` on the external CSV-derived feature matrix is a float
  row; it enters the ranking code only through its order, so the ranking
  functions take the score vector as an explicit `List ℚ` input.  The
  real-number idealisation of the cosine itself (for the numeric claim) is
  `cosineSim` below over `List ℝ`.
* The two LLM calls (`parse_user_goals`, the explanation call) are external
  collaborators; their outputs (`constraints_raw`, `llm_explanation`) are
  inputs of the pipeline model.
-/

/-- One row of the recipes table, restricted to the columns the embedded
functions read.  Boolean dietary columns of the dataset are `Bool`; columns
that are consumed through `fillna`/`isin`/NaN-semantics are `Option`s. -/
structure Recipe where
  recipe_title : String
  cook_speed : Option String
  difficulty : Option String
  tastes : Option String
  cuisine_list : Option String
  est_prep_time_min : Option ℚ
  est_cook_time_min : Option ℚ
  healthiness_score : Option ℚ
  is_vegan : Bool
  is_vegetarian : Bool
  is_gluten_free : Bool
  is_dairy_free : Bool
  is_nut_free : Bool
  is_halal : Bool
  is_kosher : Bool
deriving Repr, DecidableEq, Inhabited

/-- The `cook_speed` constraint may arrive from the LLM JSON as a single
string or as a list of strings (`filters.py` line 125 promotes a string to a
one-element list). -/
inductive CookSpeedVal where
  | str (s : String)
  | list (l : List String)
deriving Repr, DecidableEq

/-- Python truthiness of the `cook_speed` value (`if cook_speed:` at
`filters.py` line 124): an empty string or empty list is falsy. -/
def CookSpeedVal.truthy : CookSpeedVal → Bool
  | .str s => s ≠ ""
  | .list l => l ≠ []

/-- The list the code filters with after promoting a lone string. -/
def CookSpeedVal.toList : CookSpeedVal → List String
  | .str s => [s]
  | .list l => l

/-- The constraints dictionary produced by `parse_user_goals` (schema in
`CONSTRAINT_SCHEMA_HINT`).  `none` models an absent or JSON-`null` key. -/
structure Constraints where
  max_total_minutes : Option ℚ := none
  cook_speed : Option CookSpeedVal := none
  difficulty_max : Option String := none
  is_vegan : Option Bool := none
  is_vegetarian : Option Bool := none
  is_gluten_free : Option Bool := none
  is_dairy_free : Option Bool := none
  is_nut_free : Option Bool := none
  is_halal : Option Bool := none
  is_kosher : Option Bool := none
  tastes_include : Option (List String) := none
  tastes_exclude : Option (List String) := none
  cuisines_include : Option (List String) := none
  healthiness_min : Option ℚ := none
  num_results : Option Int := none
deriving Repr, DecidableEq

/-- The fixed taste vocabulary `TASTE_VOCAB` of `filters.py`. -/
def TASTE_VOCAB : List String := ["sweet", "spicy", "savory", "sour", "bitter", "umami"]

/-- The loop body of `normalize_constraints`: walk `tastes_include`, skip
falsy entries, send entries whose lowercasing is in the vocabulary to
`real_tastes` and the rest to `misfiled_cuisines`. -/
def splitTastes : List String → List String × List String
  | [] => ([], [])
  | t :: ts =>
    let rest := splitTastes ts
    if t = "" then rest
    else if TASTE_VOCAB.contains t.toLower then (t :: rest.1, rest.2)
    else (rest.1, t :: rest.2)

/-- Embedding of `normalize_constraints` (`filters.py` lines 84-106): move non-taste items
from `tastes_include` into `cuisines_include`, keep everything else as-is.
`c.get(k) or []` reads an absent/`null`/empty list as `[]`. -/
def normalize_constraints (c : Constraints) : Constraints :=
  let tastes_inc := c.tastes_include.getD []
  let cuisines_inc := c.cuisines_include.getD []
  let split := splitTastes tastes_inc
  { c with tastes_include := some split.1,
           cuisines_include := some (cuisines_inc ++ split.2) }

/-- Decidable model of `a.startswith(b)` on character lists. -/
def charsStartWith : List Char → List Char → Bool
  | _, [] => true
  | [], _ :: _ => false
  | c :: cs, d :: ds => c == d && charsStartWith cs ds

/-- Decidable substring test on character lists. -/
def charsContain : List Char → List Char → Bool
  | [], needle => needle.isEmpty
  | c :: t, needle => charsStartWith (c :: t) needle || charsContain t needle

/-- Model of `Series.str.contains(pat, case=False)` for the plain-word
patterns used by the constraint filter: case-insensitive substring test.
(pandas treats `pat` as a regular expression; for the letter-only taste and
cuisine words exercised here that coincides with a literal substring test.) -/
def strContainsCI (hay pat : String) : Bool :=
  charsContain hay.toLower.data pat.toLower.data

/-- Total prep+cook time with `fillna(0)` (`filters.py` line 119). -/
def totalTime (r : Recipe) : ℚ :=
  r.est_prep_time_min.getD 0 + r.est_cook_time_min.getD 0

/-- The ordinal difficulty scale of `filters.py` line 130. -/
def difficulty_order : List String := ["easy", "medium", "hard"]

/-- The `allowed` set `difficulty_order[:max_idx + 1]` of `filters.py` line 134. -/
def allowed_difficulties (dmax : String) : List String :=
  difficulty_order.take (difficulty_order.indexOf dmax + 1)

/-- Row predicate for the difficulty cutoff; a missing `difficulty` cell is
never a member of the allowed set (`isin` is false on NaN). -/
def difficultyOkRow (dmax : String) (r : Recipe) : Bool :=
  match r.difficulty with
  | some d => (allowed_difficulties dmax).contains d
  | none => false

/-- Row predicate for `df["cook_speed"].isin(cook_speed)` (`filters.py`
line 127); a missing cell fails `isin`. -/
def cookSpeedOkRow (v : CookSpeedVal) (r : Recipe) : Bool :=
  match r.cook_speed with
  | some s => v.toList.contains s
  | none => false

/-- The dietary flag columns looped over at `filters.py` line 138, as pairs
of the constraint accessor and the row accessor. -/
def dietary_flags : List ((Constraints → Option Bool) × (Recipe → Bool)) :=
  [(Constraints.is_vegan, Recipe.is_vegan),
   (Constraints.is_vegetarian, Recipe.is_vegetarian),
   (Constraints.is_gluten_free, Recipe.is_gluten_free),
   (Constraints.is_dairy_free, Recipe.is_dairy_free),
   (Constraints.is_nut_free, Recipe.is_nut_free),
   (Constraints.is_halal, Recipe.is_halal),
   (Constraints.is_kosher, Recipe.is_kosher)]

/-- An optional-field filter step of `filter_recipes_by_constraints`: when the
field is present and its `use` gate holds (e.g. Python truthiness, or `is not
None` for an always-true gate) the frame is filtered by `pred`, otherwise it
is left unchanged. -/
def optFilter (o : Option β) (use : β → Bool) (pred : β → α → Bool) (l : List α) : List α :=
  match o with
  | some v => if use v then l.filter (pred v) else l
  | none => l

/-- The conjunct contributed by an optional field: trivially true when the
field is absent or its gate fails. -/
def optPred (o : Option β) (use : β → Bool) (pred : β → α → Bool) (x : α) : Bool :=
  match o with
  | some v => if use v then pred v x else true
  | none => true

/-- A `for t in ts: df = df[pred(t)]`-style loop, with a per-element gate
(used with a trivial gate for the taste/cuisine loops and with the
`val is True` gate for the dietary-flag loop). -/
def gatedFold (ts : List β) (gate : β → Bool) (pred : β → α → Bool) (l : List α) : List α :=
  ts.foldl (fun d t => if gate t then d.filter (pred t) else d) l

/-- Embedding of `filter_recipes_by_constraints` (`filters.py` lines 109-165): apply each
present constraint to the frame in source order and return the index of the
surviving rows.  Rows are carried as `(position, row)` pairs so the returned
index is the list of original positions. -/
def filter_recipes_by_constraints (recipes : List Recipe) (c : Constraints) : List Nat :=
  let df0 := recipes.enum
  -- Time
  let df1 := optFilter c.max_total_minutes (fun _ => true)
    (fun m p => decide (totalTime p.2 ≤ m)) df0
  -- Cook speed (string promoted to a list; falsy values impose no filter)
  let df2 := optFilter c.cook_speed CookSpeedVal.truthy
    (fun v p => cookSpeedOkRow v p.2) df1
  -- Difficulty (unrecognized values impose no filter)
  let df3 := optFilter c.difficulty_max (fun d => difficulty_order.contains d)
    (fun d p => difficultyOkRow d p.2) df2
  -- Dietary flags (each filters only when the constraint value is `True`)
  let df4 := gatedFold dietary_flags (fun f => f.1 c == some true)
    (fun f p => f.2 p.2) df3
  -- Taste preferences
  let tastes_inc := c.tastes_include.getD []
  let tastes_exc := c.tastes_exclude.getD []
  let df5 := gatedFold tastes_inc (fun _ => true)
    (fun t p => strContainsCI (p.2.tastes.getD "") t) df4
  let df6 := gatedFold tastes_exc (fun _ => true)
    (fun t p => !strContainsCI (p.2.tastes.getD "") t) df5
  -- Cuisines
  let cuisines_inc := c.cuisines_include.getD []
  let df7 := gatedFold cuisines_inc (fun _ => true)
    (fun cu p => strContainsCI (p.2.cuisine_list.getD "") cu) df6
  -- Healthiness (a NaN score fails the `>=` comparison)
  let df8 := optFilter c.healthiness_min (fun _ => true)
    (fun m p => match p.2.healthiness_score with
      | some h => decide (m ≤ h)
      | none => false) df7
  df8.map Prod.fst

/-- The conjunction of the predicates induced by the set fields of a
constraints value, one conjunct per filter step of
`filter_recipes_by_constraints`. -/
def rowSatisfies (c : Constraints) (r : Recipe) : Bool :=
  optPred c.max_total_minutes (fun _ => true) (fun m x => decide (totalTime x ≤ m)) r
    && optPred c.cook_speed CookSpeedVal.truthy (fun v x => cookSpeedOkRow v x) r
    && optPred c.difficulty_max (fun d => difficulty_order.contains d)
         (fun d x => difficultyOkRow d x) r
    && dietary_flags.all (fun f => optPred (some f) (fun g => g.1 c == some true)
         (fun g x => g.2 x) r)
    && (c.tastes_include.getD []).all (fun t => strContainsCI (r.tastes.getD "") t)
    && (c.tastes_exclude.getD []).all (fun t => !strContainsCI (r.tastes.getD "") t)
    && (c.cuisines_include.getD []).all (fun cu => strContainsCI (r.cuisine_list.getD "") cu)
    && optPred c.healthiness_min (fun _ => true)
         (fun m x => match x.healthiness_score with
           | some h => decide (m ≤ h)
           | none => false) r

theorem optFilter_eq_filter (o : Option β) (use : β → Bool) (pred : β → α → Bool)
    (l : List α) : optFilter o use pred l = l.filter (optPred o use pred) := by
  cases o with
  | none =>
    have h1 : l.filter (optPred none use pred) = l.filter (fun _ => true) :=
      List.filter_congr (fun x _ => rfl)
    simp [optFilter, h1]
  | some v =>
    by_cases h : use v = true
    · have h1 : l.filter (optPred (some v) use pred) = l.filter (pred v) :=
        List.filter_congr (fun x _ => by simp [optPred, h])
      simp [optFilter, h, h1]
    · have h1 : l.filter (optPred (some v) use pred) = l.filter (fun _ => true) :=
        List.filter_congr (fun x _ => by simp [optPred, h])
      simp [optFilter, h, h1]

theorem gatedFold_eq_filter (ts : List β) (gate : β → Bool) (pred : β → α → Bool)
    (l : List α) :
    gatedFold ts gate pred l
      = l.filter (fun x => ts.all (fun t => optPred (some t) gate pred x)) := by
  induction ts generalizing l with
  | nil => simp [gatedFold]
  | cons t ts ih =>
    have hstep : gatedFold (t :: ts) gate pred l
        = gatedFold ts gate pred (if gate t then l.filter (pred t) else l) := rfl
    rw [hstep, ih]
    by_cases h : gate t = true
    · simp only [h, if_true, List.filter_filter]
      apply List.filter_congr
      intro x _
      simp [optPred, h, Bool.and_comm]
    · simp only [Bool.not_eq_true] at h
      simp [optPred, h]

theorem filter_eq_conjunction (recipes : List Recipe) (c : Constraints) :
    filter_recipes_by_constraints recipes c
      = (recipes.enum.filter (fun p => rowSatisfies c p.2)).map Prod.fst := by
  unfold filter_recipes_by_constraints
  simp only [optFilter_eq_filter, gatedFold_eq_filter, List.filter_filter]
  congr 1
  apply List.filter_congr
  intro p _
  rw [Bool.eq_iff_iff]
  simp only [rowSatisfies, Bool.and_eq_true, List.all_eq_true, optPred]
  tauto

/-- C1: for every catalog and constraints value,
`filter_recipes_by_constraints` returns exactly the positions of the rows
satisfying the conjunction `rowSatisfies` of the predicates induced by the
set fields (absent or null fields, falsy `cook_speed` values, unrecognized
difficulty values and non-`true` dietary flags contribute a trivially true
conjunct), and the returned identifiers are strictly increasing, i.e. in
catalog order. -/
theorem c1_filter_is_conjunction_in_catalog_order (recipes : List Recipe) (c : Constraints) :
    filter_recipes_by_constraints recipes c
      = (recipes.enum.filter (fun p => rowSatisfies c p.2)).map Prod.fst
    ∧ (filter_recipes_by_constraints recipes c).Pairwise (· < ·) := by
  refine ⟨filter_eq_conjunction recipes c, ?_⟩
  rw [filter_eq_conjunction]
  have hsub : ((recipes.enum.filter (fun p => rowSatisfies c p.2)).map Prod.fst).Sublist
      (recipes.enum.map Prod.fst) := (List.filter_sublist _).map _
  rw [List.enum_map_fst] at hsub
  exact List.Pairwise.sublist hsub (List.pairwise_lt_range _)

theorem splitTastes_idem (l : List String) :
    splitTastes (splitTastes l).1 = ((splitTastes l).1, []) := by
  induction l with
  | nil => rfl
  | cons t ts ih =>
    by_cases h0 : t = ""
    · simp only [splitTastes, h0, if_true]
      exact ih
    · by_cases h1 : TASTE_VOCAB.contains t.toLower = true
      · simp only [splitTastes, h0, if_false, h1, if_true]
        simp only [splitTastes, h0, if_false, h1, if_true, ih]
      · simp only [Bool.not_eq_true] at h1
        simp only [splitTastes, h0, if_false, h1]
        exact ih

/-- C7: `normalize_constraints` is idempotent; applying it to an
already-normalized constraints value changes nothing. -/
theorem c7_normalize_idempotent (c : Constraints) :
    normalize_constraints (normalize_constraints c) = normalize_constraints c := by
  unfold normalize_constraints
  simp only [Option.getD_some, splitTastes_idem, List.append_nil]

/-- Stable ascending insertion: the element being inserted comes earlier in
the original order, so on equal keys it is placed before the existing run. -/
def pdInsert (key : α → ℚ) (x : α) : List α → List α
  | [] => [x]
  | y :: ys => if key x ≤ key y then x :: y :: ys else y :: pdInsert key x ys

/-- Ascending insertion sort standing in for the `numpy.argsort` call
inside pandas `nargsort`.  The default argsort kind (`quicksort`) leaves the
order of equal keys unspecified; this model fixes one concrete resolution,
and no property proved below depends on the order of equal keys. -/
def pdSortAsc (key : α → ℚ) : List α → List α
  | [] => []
  | x :: xs => pdInsert key x (pdSortAsc key xs)

/-- Model of `sort_values(by=key, ascending=False)` on rows with a present
key, after pandas `nargsort`: reverse the rows, argsort ascending, reverse
the resulting order.  The order of rows with equal keys is unspecified in
the program (unstable default sort kind); nothing proved below relies on
the resolution this model picks. -/
def pandasSortDesc (key : α → ℚ) (l : List α) : List α :=
  (pdSortAsc key l.reverse).reverse

theorem pdInsert_perm (key : α → ℚ) (x : α) (s : List α) :
    (pdInsert key x s).Perm (x :: s) := by
  induction s with
  | nil => simp [pdInsert]
  | cons y ys ih =>
    by_cases h : key x ≤ key y
    · simp [pdInsert, h]
    · rw [pdInsert, if_neg h]
      exact (ih.cons y).trans (List.Perm.swap x y ys)

theorem pdSortAsc_perm (key : α → ℚ) (l : List α) : (pdSortAsc key l).Perm l := by
  induction l with
  | nil => simp [pdSortAsc]
  | cons x xs ih =>
    exact (pdInsert_perm key x (pdSortAsc key xs)).trans (ih.cons x)

theorem pandasSortDesc_perm (key : α → ℚ) (l : List α) :
    (pandasSortDesc key l).Perm l := by
  unfold pandasSortDesc
  exact ((pdSortAsc key l.reverse).reverse_perm).trans
    ((pdSortAsc_perm key l.reverse).trans l.reverse_perm)

/-- Embedding of `pick_anchor_recipe_index` (`pipeline.py` lines 25-35): highest
healthiness within the filtered subset, via
`subset.sort_values(by="healthiness_score", ascending=False).index[0]`.
The pandas descending sort is `pandasSortDesc` on the rows whose key is
present, with missing-key rows appended last (`na_position="last"`). -/
def pick_anchor_recipe_index (recipes : List Recipe) (candidate_idx : List Nat) : Option Nat :=
  if candidate_idx.length = 0 then none
  else
    let subset : List (Nat × Option ℚ) :=
      candidate_idx.map (fun i => (i, (recipes.getD i default).healthiness_score))
    let non_nans : List (Nat × ℚ) :=
      subset.filterMap (fun p => p.2.map (fun h => (p.1, h)))
    let nan_idx : List Nat := (subset.filter (fun p => p.2.isNone)).map Prod.fst
    let best : List Nat := (pandasSortDesc (fun q => q.2) non_nans).map Prod.fst ++ nan_idx
    best.head?

/-- One row of the `sim_df` frame built by `get_top_similar_recipes`: the
original positional index, the recipe title, and the cosine similarity
score against the anchor. -/
structure SimRow where
  idx : Nat
  recipe_title : String
  similarity_score : ℚ
deriving Repr, DecidableEq

/-- Model of `DataFrame.head(n)` (Python slice `df[:n]`): a nonnegative `n`
keeps the first `n` rows; a negative `n` keeps all but the last `|n|` rows. -/
def pdHead (n : Int) (l : List α) : List α :=
  if 0 ≤ n then l.take n.toNat else l.take (l.length - (-n).toNat)

/-- Model of `drop_duplicates(subset="recipe_title", keep="first")`: keep,
in the current row order, only the first row bearing each title. -/
def dropDupTitles : List SimRow → List String → List SimRow
  | [], _ => []
  | r :: rs, seen =>
    if seen.contains r.recipe_title then dropDupTitles rs seen
    else r :: dropDupTitles rs (r.recipe_title :: seen)

/-- Embedding of `get_top_similar_recipes` (`similarity_engine.py` lines 136-162).  The
feature matrix and the cosine row `sim_scores` it induces for the anchor are
derived from the external CSV dataset, so they enter as inputs: `titles` is
the `recipe_title` column (its length is the matrix row count
`combined_features.shape[0]`) and `sim_scores` is the flattened
`cosine_similarity(combined_features[recipe_index], combined_features)`
row, positionally aligned with `titles`.  Out-of-range anchors raise
`IndexError`; then the frame is sorted by score descending, deduplicated by
title keeping the first, the anchor row is dropped, and `head(top_n)` is
returned. -/
def get_top_similar_recipes (titles : List String) (sim_scores : List ℚ)
    (recipe_index : Int) (top_n : Int) : Except String (List SimRow) :=
  if recipe_index < 0 ∨ (titles.length : Int) ≤ recipe_index then
    .error "Recipe index out of bounds for the feature matrix rows."
  else
    let sim_df : List SimRow :=
      ((titles.zip sim_scores).enum).map (fun p => ⟨p.1, p.2.1, p.2.2⟩)
    let sorted := pandasSortDesc (fun r => r.similarity_score) sim_df
    let deduped := dropDupTitles sorted []
    let no_anchor := deduped.filter (fun r => (r.idx : Int) ≠ recipe_index)
    .ok (pdHead top_n no_anchor)

theorem pdHead_sublist (n : Int) (l : List α) : (pdHead n l).Sublist l := by
  unfold pdHead
  by_cases h : (0 : Int) ≤ n
  · rw [if_pos h]
    exact List.take_sublist _ _
  · rw [if_neg h]
    exact List.take_sublist _ _

theorem pdHead_length_le (n : Int) (l : List α) (h : 0 ≤ n) :
    ((pdHead n l).length : Int) ≤ n := by
  unfold pdHead
  rw [if_pos h]
  have h1 : (l.take n.toNat).length ≤ n.toNat := by
    rw [List.length_take]
    exact min_le_left _ _
  omega

theorem pdHead_zero (l : List α) : pdHead 0 l = [] := by
  unfold pdHead
  simp

theorem dropDupTitles_sublist (l : List SimRow) (seen : List String) :
    (dropDupTitles l seen).Sublist l := by
  induction l generalizing seen with
  | nil => simp [dropDupTitles]
  | cons r rs ih =>
    rw [dropDupTitles]
    by_cases h : seen.contains r.recipe_title = true
    · rw [if_pos h]
      exact (ih seen).cons r
    · rw [if_neg h]
      exact (ih (r.recipe_title :: seen)).cons₂ r

theorem dropDupTitles_nodup (l : List SimRow) (seen : List String) :
    ((dropDupTitles l seen).map (fun r => r.recipe_title)).Nodup
    ∧ ∀ t ∈ (dropDupTitles l seen).map (fun r => r.recipe_title),
        ¬ seen.contains t = true := by
  induction l generalizing seen with
  | nil => simp [dropDupTitles]
  | cons r rs ih =>
    rw [dropDupTitles]
    by_cases h : seen.contains r.recipe_title = true
    · rw [if_pos h]
      exact ih seen
    · rw [if_neg h]
      obtain ⟨ihd, ihs⟩ := ih (r.recipe_title :: seen)
      rw [List.map_cons]
      constructor
      · rw [List.nodup_cons]
        refine ⟨?_, ihd⟩
        intro hc
        have := ihs r.recipe_title hc
        simp at this
      · intro t ht
        rcases List.mem_cons.mp ht with rfl | ht'
        · exact h
        · intro hc
          have hmem := ihs t ht'
          simp at hmem hc
          exact hmem.2 hc

/-- C4 (amended): for every dataset, anchor index and limit, a successful
`get_top_similar_recipes` result never contains the identifier of the anchor itself
and never contains two rows with the same title; the length bound
`|result| <= limit` holds for every nonnegative limit (for a negative limit
pandas `head` keeps all but the last `|limit|` rows, see the
counterexample). -/
theorem c4_top_similar_no_anchor_no_dup_titles (titles : List String)
    (sim_scores : List ℚ) (recipe_index top_n : Int) (rows : List SimRow)
    (h : get_top_similar_recipes titles sim_scores recipe_index top_n = .ok rows) :
    (∀ r ∈ rows, (r.idx : Int) ≠ recipe_index)
    ∧ (rows.map (fun r => r.recipe_title)).Nodup
    ∧ (0 ≤ top_n → (rows.length : Int) ≤ top_n) := by
  by_cases hrange : recipe_index < 0 ∨ (titles.length : Int) ≤ recipe_index
  · unfold get_top_similar_recipes at h
    rw [if_pos hrange] at h
    cases h
  · unfold get_top_similar_recipes at h
    rw [if_neg hrange] at h
    simp only [Except.ok.injEq] at h
    subst h
    refine ⟨?_, ?_, ?_⟩
    · intro r hr
      have hr2 : r ∈ (dropDupTitles
          (pandasSortDesc (fun q => q.similarity_score)
            (((titles.zip sim_scores).enum).map (fun p => (⟨p.1, p.2.1, p.2.2⟩ : SimRow)))) []).filter
          (fun q => (q.idx : Int) ≠ recipe_index) :=
        (pdHead_sublist _ _).subset hr
      exact of_decide_eq_true (List.mem_filter.mp hr2).2
    · have hsub : ((pdHead top_n ((dropDupTitles
          (pandasSortDesc (fun q => q.similarity_score)
            (((titles.zip sim_scores).enum).map (fun p => (⟨p.1, p.2.1, p.2.2⟩ : SimRow)))) []).filter
          (fun q => (q.idx : Int) ≠ recipe_index))).map (fun r => r.recipe_title)).Sublist
          ((dropDupTitles
            (pandasSortDesc (fun q => q.similarity_score)
              (((titles.zip sim_scores).enum).map (fun p => (⟨p.1, p.2.1, p.2.2⟩ : SimRow)))) []).map
            (fun r => r.recipe_title)) :=
        ((pdHead_sublist _ _).trans (List.filter_sublist _)).map _
      exact (dropDupTitles_nodup _ _).1.sublist hsub
    · intro hn
      exact pdHead_length_le _ _ hn

/-- C4 counterexample to the claim as stated (which quantifies over every
limit): with four distinct titles, anchor 0 and limit `-2`, the call
succeeds and returns one row, whose count is not at most the limit. -/
theorem c4_counterexample :
    (get_top_similar_recipes ["a", "b", "c", "d"] [4, 3, 2, 1] 0 (-2)).map
      (fun rows => decide ((rows.length : Int) ≤ -2)) = .ok false := by rfl

theorem c4_witness :
    (∀ r ∈ ([⟨1, "b", 3⟩, ⟨2, "c", 2⟩] : List SimRow), (r.idx : Int) ≠ 0)
    ∧ ((([⟨1, "b", 3⟩, ⟨2, "c", 2⟩] : List SimRow)).map
        (fun r => r.recipe_title)).Nodup
    ∧ (0 ≤ (2 : Int) →
        ((([⟨1, "b", 3⟩, ⟨2, "c", 2⟩] : List SimRow)).length : Int) ≤ 2) :=
  c4_top_similar_no_anchor_no_dup_titles ["a", "b", "c", "d"] [4, 3, 2, 1] 0 2
    [⟨1, "b", 3⟩, ⟨2, "c", 2⟩] (by rfl)

/-- C6 (amended): `get_top_similar_recipes` fails exactly when the anchor
index is outside `[0, rows)`; for an in-range anchor, limit `0` yields an
empty result rather than an error.  (The original claim of "limit `<= 0`"
fails for negative limits: pandas `head` of a negative count keeps all but
the last `|limit|` rows, see the counterexample.  On an empty catalog every
anchor index is out of range, so the in-range clause is vacuous there.) -/
theorem c6_top_similar_error_iff_out_of_range (titles : List String)
    (sim_scores : List ℚ) (recipe_index top_n : Int) :
    ((∃ e, get_top_similar_recipes titles sim_scores recipe_index top_n = .error e)
      ↔ (recipe_index < 0 ∨ (titles.length : Int) ≤ recipe_index))
    ∧ (¬ (recipe_index < 0 ∨ (titles.length : Int) ≤ recipe_index) →
        get_top_similar_recipes titles sim_scores recipe_index 0 = .ok []) := by
  constructor
  · constructor
    · rintro ⟨e, he⟩
      by_contra hrange
      unfold get_top_similar_recipes at he
      rw [if_neg hrange] at he
      cases he
    · intro hrange
      refine ⟨"Recipe index out of bounds for the feature matrix rows.", ?_⟩
      unfold get_top_similar_recipes
      rw [if_pos hrange]
  · intro hrange
    unfold get_top_similar_recipes
    rw [if_neg hrange]
    simp only [pdHead_zero]

/-- C6 counterexample to the claim as stated: for the in-range anchor 0 of a
three-row dataset, the negative limit `-1` yields a non-empty result, not an
empty one. -/
theorem c6_counterexample :
    (get_top_similar_recipes ["a", "b", "c"] [4, 2, 1] 0 (-1)).map
      (fun rows => rows.isEmpty) = .ok false := by rfl

theorem c6_witness :
    get_top_similar_recipes ["a", "b"] [2, 1] 0 0 = .ok [] :=
  (c6_top_similar_error_iff_out_of_range ["a", "b"] [2, 1] 0 0).2 (by decide)

/-- The fields of `_serialize_recipe_row` (`pipeline.py` lines 99-116) the
claims observe: the row label `id`, the title, and the attached similarity
score (`1.0` for the anchor, the engine score otherwise, `null` when
absent). -/
structure SerializedRecipe where
  id : Nat
  title : String
  similarity_score : Option ℚ
deriving Repr, DecidableEq

/-- Serialization of the recipe row at a position. -/
def serialize_recipe_row (recipes : List Recipe) (i : Nat) (score : Option ℚ) :
    SerializedRecipe :=
  { id := i, title := (recipes.getD i default).recipe_title, similarity_score := score }

/-- The response dictionary assembled by `recommend_from_text`
(`pipeline.py` lines 137-144). -/
structure RecResult where
  constraints : Constraints
  candidate_count : Nat
  anchor_recipe : Option SerializedRecipe
  similar_recipes : List SerializedRecipe
  explanation : String
  used_relaxation : Bool
deriving Repr, DecidableEq

/-- The fixed message of the terminal no-results outcome (`pipeline.py`
lines 161-164). -/
def NO_RESULTS_MESSAGE : String :=
  "No recipes matched your constraints, even after relaxing cook speed and healthiness slightly. Try loosening your request (e.g., allow medium time or broader cuisines)."

/-- The relaxed constraints built at `pipeline.py` lines 147-150: drop
`cook_speed`; decrease a present `healthiness_min` by 10, floored at 0. -/
def relax_constraints (c : Constraints) : Constraints :=
  { c with cook_speed := none,
           healthiness_min := c.healthiness_min.map (fun h => max 0 (h - 10)) }

/-- The `constraints.get("num_results") or top_n` count of `pipeline.py`
line 167 (Python `or`: an absent, null or zero value falls back to
`top_n`). -/
def effective_num_results (c : Constraints) (top_n : Int) : Int :=
  match c.num_results with
  | some k => if k = 0 then top_n else k
  | none => top_n

/-- Embedding of `explain_recommendations` (`pipeline.py` lines 66-96): the apology
string when there is no anchor or no similar row, otherwise the opaque text
produced by the external LLM call (an input here). -/
def explain_recommendations (llm_answer : String) (anchor_index : Option Nat)
    (similar_df : List SimRow) : String :=
  if anchor_index.isNone || similar_df.isEmpty then
    "I couldn\x27t find any recipes that match those constraints."
  else llm_answer

/-- Embedding of `get_similar_recipes_with_constraints` (`pipeline.py` lines 38-47):
over-fetch 50 rows from the similarity engine, keep the rows whose label is
in the candidate set, truncate with `head(top_n)`.  (The `anchor_index is
None` guard of line 42 is handled by the caller, which only reaches this
call with a selected anchor.) -/
def get_similar_recipes_with_constraints (recipes : List Recipe) (sim_scores : List ℚ)
    (anchor_index : Nat) (candidate_idx : List Nat) (top_n : Int) :
    Except String (List SimRow) :=
  match get_top_similar_recipes (recipes.map (fun r => r.recipe_title)) sim_scores
      (anchor_index : Int) 50 with
  | .error e => .error e
  | .ok raw_sim =>
    .ok (pdHead top_n (raw_sim.filter (fun r => candidate_idx.contains r.idx)))

/-- The tail of `recommend_from_text` after the candidate set is fixed
(`pipeline.py` lines 167-184): resolve the result count, pick the anchor,
fetch constrained similars, serialize them, and attach the explanation. -/
def recommend_rest (recipes : List Recipe) (sim : Nat → List ℚ) (llm_explanation : String)
    (constraints : Constraints) (candidate_idx : List Nat) (result : RecResult)
    (top_n : Int) : Except String RecResult :=
  let num_results := effective_num_results constraints top_n
  match pick_anchor_recipe_index recipes candidate_idx with
  | none =>
    .ok { result with
      explanation := "Could not select an anchor recipe from the candidates." }
  | some anchor_idx =>
    match get_similar_recipes_with_constraints recipes (sim anchor_idx) anchor_idx
        candidate_idx num_results with
    | .error e => .error e
    | .ok similar_df =>
      .ok { result with
        anchor_recipe := some (serialize_recipe_row recipes anchor_idx (some 1)),
        similar_recipes := similar_df.map
          (fun r => serialize_recipe_row recipes r.idx (some r.similarity_score)),
        explanation := explain_recommendations llm_explanation (some anchor_idx) similar_df }

/-- Embedding of `recommend_from_text` (`pipeline.py` lines 119-184).  The LLM parse of
the user text is the input `constraints_raw`; `sim i` is the cosine row of
the external feature matrix for anchor `i`; `llm_explanation` is the opaque
output of the external explanation call. -/
def recommend_from_text (recipes : List Recipe) (sim : Nat → List ℚ)
    (llm_explanation : String) (constraints_raw : Constraints) (top_n : Int) :
    Except String RecResult :=
  let constraints := normalize_constraints constraints_raw
  let candidate_idx := filter_recipes_by_constraints recipes constraints
  let result : RecResult :=
    { constraints := constraints,
      candidate_count := candidate_idx.length,
      anchor_recipe := none,
      similar_recipes := [],
      explanation := "",
      used_relaxation := false }
  if candidate_idx.length = 0 then
    let relaxed := relax_constraints constraints
    let candidate_idx_relaxed := filter_recipes_by_constraints recipes relaxed
    if 0 < candidate_idx_relaxed.length then
      recommend_rest recipes sim llm_explanation relaxed candidate_idx_relaxed
        { result with constraints := relaxed,
                      candidate_count := candidate_idx_relaxed.length,
                      used_relaxation := true } top_n
    else
      .ok { result with explanation := NO_RESULTS_MESSAGE }
  else
    recommend_rest recipes sim llm_explanation constraints candidate_idx result top_n

theorem filter_recipes_mem_lt (recipes : List Recipe) (c : Constraints) :
    ∀ i ∈ filter_recipes_by_constraints recipes c, i < recipes.length := by
  intro i hi
  rw [filter_eq_conjunction] at hi
  obtain ⟨p, hp, rfl⟩ := List.mem_map.mp hi
  have hp2 : p ∈ recipes.enum := (List.filter_sublist _).subset hp
  have hp3 : p.1 ∈ recipes.enum.map Prod.fst := List.mem_map_of_mem Prod.fst hp2
  rw [List.enum_map_fst] at hp3
  exact List.mem_range.mp hp3

theorem head?_mem (l : List α) (a : α) (h : l.head? = some a) : a ∈ l := by
  cases l with
  | nil => cases h
  | cons x t =>
    rw [List.head?_cons, Option.some.injEq] at h
    subst h
    exact List.mem_cons_self _ _

theorem pick_anchor_mem (recipes : List Recipe) (cand : List Nat) (a : Nat)
    (h : pick_anchor_recipe_index recipes cand = some a) : a ∈ cand := by
  unfold pick_anchor_recipe_index at h
  by_cases hc : cand.length = 0
  · rw [if_pos hc] at h
    cases h
  · rw [if_neg hc] at h
    have hmem := head?_mem _ a h
    rcases List.mem_append.mp hmem with h1 | h2
    · obtain ⟨p, hp, rfl⟩ := List.mem_map.mp h1
      have hp2 : p ∈ (cand.map (fun i => (i, (recipes.getD i default).healthiness_score))).filterMap
          (fun q => q.2.map (fun hh => (q.1, hh))) :=
        (pandasSortDesc_perm (fun q => q.2) _).mem_iff.mp hp
      obtain ⟨q, hq, hq2⟩ := List.mem_filterMap.mp hp2
      obtain ⟨i, hi, rfl⟩ := List.mem_map.mp hq
      cases hs : (recipes.getD i default).healthiness_score with
      | none =>
        rw [hs] at hq2
        cases hq2
      | some v =>
        rw [hs] at hq2
        simp only [Option.map_some', Option.some.injEq] at hq2
        rw [← hq2]
        exact hi
    · obtain ⟨p, hp, rfl⟩ := List.mem_map.mp h2
      have hp2 := List.mem_filter.mp hp
      obtain ⟨i, hi, rfl⟩ := List.mem_map.mp hp2.1
      exact hi

theorem get_top_similar_ok (titles : List String) (scores : List ℚ) (idx top_n : Int)
    (h : ¬ (idx < 0 ∨ (titles.length : Int) ≤ idx)) :
    get_top_similar_recipes titles scores idx top_n
      = .ok (pdHead top_n ((dropDupTitles (pandasSortDesc (fun r => r.similarity_score)
          (((titles.zip scores).enum).map (fun p => ⟨p.1, p.2.1, p.2.2⟩))) []).filter
          (fun r => (r.idx : Int) ≠ idx))) := by
  unfold get_top_similar_recipes
  rw [if_neg h]

theorem recommend_rest_ok_fields (recipes : List Recipe) (sim : Nat → List ℚ)
    (llm : String) (c : Constraints) (cand : List Nat) (res : RecResult) (top_n : Int)
    (hlt : ∀ i ∈ cand, i < recipes.length)
    (hsim : res.similar_recipes = []) :
    ∃ r, recommend_rest recipes sim llm c cand res top_n = .ok r
      ∧ r.used_relaxation = res.used_relaxation
      ∧ r.constraints = res.constraints
      ∧ r.candidate_count = res.candidate_count
      ∧ (0 ≤ effective_num_results c top_n →
          (r.similar_recipes.length : Int) ≤ effective_num_results c top_n) := by
  unfold recommend_rest
  cases hp : pick_anchor_recipe_index recipes cand with
  | none =>
    dsimp only
    refine ⟨_, rfl, rfl, rfl, rfl, ?_⟩
    intro hn
    simpa [hsim] using hn
  | some a =>
    have ha : a ∈ cand := pick_anchor_mem recipes cand a hp
    have haR : a < recipes.length := hlt a ha
    have hrange : ¬ ((a : Int) < 0
        ∨ (((recipes.map (fun r => r.recipe_title)).length : Int) ≤ (a : Int))) := by
      rw [List.length_map]
      omega
    unfold get_similar_recipes_with_constraints
    dsimp only
    rw [get_top_similar_ok _ _ _ _ hrange]
    dsimp only
    refine ⟨_, rfl, rfl, rfl, rfl, ?_⟩
    intro hn
    simp only [List.length_map]
    exact pdHead_length_le _ _ hn

theorem recommend_both_empty (recipes : List Recipe) (sim : Nat → List ℚ)
    (llm : String) (raw : Constraints) (top_n : Int)
    (h1 : filter_recipes_by_constraints recipes (normalize_constraints raw) = [])
    (h2 : filter_recipes_by_constraints recipes
        (relax_constraints (normalize_constraints raw)) = []) :
    recommend_from_text recipes sim llm raw top_n = .ok
      { constraints := normalize_constraints raw,
        candidate_count := 0,
        anchor_recipe := none,
        similar_recipes := [],
        explanation := NO_RESULTS_MESSAGE,
        used_relaxation := false } := by
  unfold recommend_from_text
  dsimp only
  rw [h1, h2]
  simp

/-- C2: when the normalized constraints filter to an empty candidate set,
exactly one relaxed constraints value is built (`relax_constraints`: drop
`cook_speed`, lower a present `healthiness_min` by 10 floored at 0) and the
filter is re-run once; a non-empty relaxed filter is adopted with
`used_relaxation = true` and the relaxed constraints reported in the
response, while an empty relaxed filter terminates with the fixed
no-results outcome (no anchor, fixed message) with no further retry. -/
theorem c2_relaxation_policy (recipes : List Recipe) (sim : Nat → List ℚ)
    (llm : String) (raw : Constraints) (top_n : Int)
    (hempty : filter_recipes_by_constraints recipes (normalize_constraints raw) = []) :
    (filter_recipes_by_constraints recipes
        (relax_constraints (normalize_constraints raw)) ≠ [] →
      ∃ r, recommend_from_text recipes sim llm raw top_n = .ok r
        ∧ r.used_relaxation = true
        ∧ r.constraints = relax_constraints (normalize_constraints raw)
        ∧ r.candidate_count = (filter_recipes_by_constraints recipes
            (relax_constraints (normalize_constraints raw))).length)
    ∧ (filter_recipes_by_constraints recipes
        (relax_constraints (normalize_constraints raw)) = [] →
      recommend_from_text recipes sim llm raw top_n = .ok
        { constraints := normalize_constraints raw,
          candidate_count := 0,
          anchor_recipe := none,
          similar_recipes := [],
          explanation := NO_RESULTS_MESSAGE,
          used_relaxation := false }) := by
  constructor
  · intro hrel
    have hlen : 0 < (filter_recipes_by_constraints recipes
        (relax_constraints (normalize_constraints raw))).length :=
      List.length_pos.mpr hrel
    obtain ⟨r, hr, hu, hcst, hcc, _⟩ := recommend_rest_ok_fields recipes sim llm
      (relax_constraints (normalize_constraints raw))
      (filter_recipes_by_constraints recipes (relax_constraints (normalize_constraints raw)))
      { constraints := relax_constraints (normalize_constraints raw),
        candidate_count := (filter_recipes_by_constraints recipes
          (relax_constraints (normalize_constraints raw))).length,
        anchor_recipe := none, similar_recipes := [], explanation := "",
        used_relaxation := true } top_n
      (filter_recipes_mem_lt recipes _) rfl
    refine ⟨r, ?_, hu, hcst, hcc⟩
    unfold recommend_from_text
    dsimp only
    rw [hempty]
    simp only [List.length_nil]
    rw [if_pos trivial, if_pos hlen]
    exact hr
  · intro h2
    exact recommend_both_empty recipes sim llm raw top_n hempty h2

/-- C9: whenever both the original and the relaxed filter yield an empty
candidate set, the response has a null anchor, an empty similar-recipes
list, candidate_count 0, the fixed no-results explanation, and
`used_relaxation = false` (the attempted-but-failed relaxation is not
reported as used). -/
theorem c9_failed_relaxation_not_reported (recipes : List Recipe)
    (sim : Nat → List ℚ) (llm : String) (raw : Constraints) (top_n : Int)
    (h1 : filter_recipes_by_constraints recipes (normalize_constraints raw) = [])
    (h2 : filter_recipes_by_constraints recipes
        (relax_constraints (normalize_constraints raw)) = []) :
    recommend_from_text recipes sim llm raw top_n = .ok
      { constraints := normalize_constraints raw,
        candidate_count := 0,
        anchor_recipe := none,
        similar_recipes := [],
        explanation := NO_RESULTS_MESSAGE,
        used_relaxation := false } :=
  recommend_both_empty recipes sim llm raw top_n h1 h2

/-- A concrete recipe row used by the pipeline witnesses. -/
def plainRecipe (title : String) (health : ℚ) : Recipe :=
  { recipe_title := title, cook_speed := some "slow", difficulty := some "easy",
    tastes := some "savory", cuisine_list := some "asian",
    est_prep_time_min := some 10, est_cook_time_min := some 10,
    healthiness_score := some health,
    is_vegan := false, is_vegetarian := true, is_gluten_free := true,
    is_dairy_free := true, is_nut_free := true, is_halal := true, is_kosher := true }

/-- Seven catalog rows with distinct titles and healthiness scores. -/
def sevenRecipes : List Recipe :=
  [plainRecipe "a" 100, plainRecipe "b" 90, plainRecipe "c" 80, plainRecipe "d" 70,
   plainRecipe "e" 60, plainRecipe "f" 50, plainRecipe "g" 40]

/-- A similarity row for the seven-recipe catalog. -/
def sevenSim : Nat → List ℚ := fun _ => [70, 60, 50, 40, 30, 20, 10]

/-- C5 counterexample to the claim as stated: with `top_n = 5` but an
LLM-extracted `num_results` of 7 and seven candidate recipes, the response
carries 6 similar recipes — the `num_results` constraint field overrides the
requested count of the caller, so the similar list is not bounded by `top_n`. -/
theorem c5_counterexample :
    (recommend_from_text sevenRecipes sevenSim "ok" { num_results := some 7 } 5).map
      (fun r => decide (r.similar_recipes.length ≤ 5)) = .ok false := by rfl

/-- C5 (amended): in every successful response, `candidate_count` equals the
size of the candidate set actually used for anchor selection (the original
filter result when non-empty, otherwise the relaxed one), and the
similar-recipes list has length at most the effective requested count
(`num_results` when set and nonzero, else the `top_n` of the caller) whenever
that count is nonnegative; the bound by `top_n` itself fails, see the
counterexample. -/
theorem c5_counts (recipes : List Recipe) (sim : Nat → List ℚ) (llm : String)
    (raw : Constraints) (top_n : Int) (r : RecResult)
    (h : recommend_from_text recipes sim llm raw top_n = .ok r) :
    r.candidate_count
      = (if (filter_recipes_by_constraints recipes (normalize_constraints raw)).length = 0
         then (filter_recipes_by_constraints recipes
                (relax_constraints (normalize_constraints raw))).length
         else (filter_recipes_by_constraints recipes (normalize_constraints raw)).length)
    ∧ (0 ≤ effective_num_results (normalize_constraints raw) top_n →
        (r.similar_recipes.length : Int)
          ≤ effective_num_results (normalize_constraints raw) top_n) := by
  have heffR : effective_num_results (relax_constraints (normalize_constraints raw)) top_n
      = effective_num_results (normalize_constraints raw) top_n := rfl
  by_cases hc : (filter_recipes_by_constraints recipes (normalize_constraints raw)).length = 0
  · by_cases hrel : 0 < (filter_recipes_by_constraints recipes
        (relax_constraints (normalize_constraints raw))).length
    · obtain ⟨r', hr', hu, hcst, hcc, hlen⟩ := recommend_rest_ok_fields recipes sim llm
        (relax_constraints (normalize_constraints raw))
        (filter_recipes_by_constraints recipes (relax_constraints (normalize_constraints raw)))
        { constraints := relax_constraints (normalize_constraints raw),
          candidate_count := (filter_recipes_by_constraints recipes
            (relax_constraints (normalize_constraints raw))).length,
          anchor_recipe := none, similar_recipes := [], explanation := "",
          used_relaxation := true } top_n
        (filter_recipes_mem_lt recipes _) rfl
      have heq : recommend_from_text recipes sim llm raw top_n = .ok r' := by
        unfold recommend_from_text
        dsimp only
        rw [if_pos hc, if_pos hrel]
        exact hr'
      rw [heq] at h
      injection h with h
      subst h
      rw [if_pos hc]
      refine ⟨hcc, ?_⟩
      intro hn
      rw [← heffR] at hn ⊢
      exact hlen hn
    · have hrel0 : (filter_recipes_by_constraints recipes
          (relax_constraints (normalize_constraints raw))).length = 0 := by omega
      have heq := recommend_both_empty recipes sim llm raw top_n
        (List.length_eq_zero.mp hc) (List.length_eq_zero.mp hrel0)
      rw [heq] at h
      injection h with h
      subst h
      rw [if_pos hc]
      exact ⟨hrel0.symm, fun hn => by simpa using hn⟩
  · obtain ⟨r', hr', hu, hcst, hcc, hlen⟩ := recommend_rest_ok_fields recipes sim llm
      (normalize_constraints raw)
      (filter_recipes_by_constraints recipes (normalize_constraints raw))
      { constraints := normalize_constraints raw,
        candidate_count := (filter_recipes_by_constraints recipes
          (normalize_constraints raw)).length,
        anchor_recipe := none, similar_recipes := [], explanation := "",
        used_relaxation := false } top_n
      (filter_recipes_mem_lt recipes _) rfl
    have heq : recommend_from_text recipes sim llm raw top_n = .ok r' := by
      unfold recommend_from_text
      dsimp only
      rw [if_neg hc]
      exact hr'
    rw [heq] at h
    injection h with h
    subst h
    rw [if_neg hc]
    exact ⟨hcc, hlen⟩

theorem c5_witness :
    ({ constraints := normalize_constraints {}, candidate_count := 2,
       anchor_recipe := some { id := 0, title := "a", similarity_score := some 1 },
       similar_recipes := [{ id := 1, title := "b", similarity_score := some 3 }],
       explanation := "ok", used_relaxation := false } : RecResult).candidate_count
      = (if (filter_recipes_by_constraints [plainRecipe "a" 50, plainRecipe "b" 40]
              (normalize_constraints {})).length = 0
         then (filter_recipes_by_constraints [plainRecipe "a" 50, plainRecipe "b" 40]
                (relax_constraints (normalize_constraints {}))).length
         else (filter_recipes_by_constraints [plainRecipe "a" 50, plainRecipe "b" 40]
                (normalize_constraints {})).length)
    ∧ (0 ≤ effective_num_results (normalize_constraints {}) 5 →
        ((({ constraints := normalize_constraints {}, candidate_count := 2,
             anchor_recipe := some { id := 0, title := "a", similarity_score := some 1 },
             similar_recipes := [{ id := 1, title := "b", similarity_score := some 3 }],
             explanation := "ok",
             used_relaxation := false } : RecResult)).similar_recipes.length : Int)
          ≤ effective_num_results (normalize_constraints {}) 5) :=
  c5_counts [plainRecipe "a" 50, plainRecipe "b" 40] (fun _ => [7, 3]) "ok" {} 5
    { constraints := normalize_constraints {}, candidate_count := 2,
      anchor_recipe := some { id := 0, title := "a", similarity_score := some 1 },
      similar_recipes := [{ id := 1, title := "b", similarity_score := some 3 }],
      explanation := "ok", used_relaxation := false } (by rfl)

theorem recommend_rest_similar_congr (recipes : List Recipe) (sim : Nat → List ℚ)
    (llm : String) (c1 c2 : Constraints) (cand : List Nat) (res1 res2 : RecResult)
    (top_n : Int)
    (heff : effective_num_results c1 top_n = effective_num_results c2 top_n)
    (hsim : res1.similar_recipes = res2.similar_recipes) :
    (recommend_rest recipes sim llm c1 cand res1 top_n).map (fun r => r.similar_recipes)
      = (recommend_rest recipes sim llm c2 cand res2 top_n).map
          (fun r => r.similar_recipes) := by
  unfold recommend_rest
  dsimp only
  rw [heff]
  cases pick_anchor_recipe_index recipes cand with
  | none =>
    dsimp only [Except.map]
    rw [hsim]
  | some a =>
    dsimp only
    cases hg : get_similar_recipes_with_constraints recipes (sim a) a cand
        (effective_num_results c2 top_n) with
    | error e => rfl
    | ok df => rfl

/-- C10: a `num_results` field that is 0, null or absent falls back to the
`top_n` of the caller: the effective truncation count is `top_n`, and the
similar-recipes list of the response coincides with the one produced when
`num_results` is explicitly `top_n` — in particular an explicit 0 does not
yield an empty truncation. -/
theorem c10_num_results_fallback (recipes : List Recipe) (sim : Nat → List ℚ)
    (llm : String) (raw : Constraints) (top_n : Int)
    (h : raw.num_results = none ∨ raw.num_results = some 0) :
    effective_num_results (normalize_constraints raw) top_n = top_n
    ∧ (recommend_from_text recipes sim llm raw top_n).map (fun r => r.similar_recipes)
      = (recommend_from_text recipes sim llm
          { raw with num_results := some top_n } top_n).map
          (fun r => r.similar_recipes) := by
  have hnr : (normalize_constraints raw).num_results = raw.num_results := rfl
  have heff : effective_num_results (normalize_constraints raw) top_n = top_n := by
    unfold effective_num_results
    rw [hnr]
    rcases h with h | h
    · rw [h]
    · rw [h]
      simp
  refine ⟨heff, ?_⟩
  have hc2 : normalize_constraints { raw with num_results := some top_n }
      = { normalize_constraints raw with num_results := some top_n } := rfl
  have hfilter : filter_recipes_by_constraints recipes
      { normalize_constraints raw with num_results := some top_n }
      = filter_recipes_by_constraints recipes (normalize_constraints raw) := rfl
  have hrelax : relax_constraints { normalize_constraints raw with num_results := some top_n }
      = { relax_constraints (normalize_constraints raw) with num_results := some top_n } := rfl
  have hfilter2 : filter_recipes_by_constraints recipes
      { relax_constraints (normalize_constraints raw) with num_results := some top_n }
      = filter_recipes_by_constraints recipes
          (relax_constraints (normalize_constraints raw)) := rfl
  have heffR : effective_num_results (relax_constraints (normalize_constraints raw)) top_n
      = effective_num_results (normalize_constraints raw) top_n := rfl
  have heff2 : effective_num_results
      { normalize_constraints raw with num_results := some top_n } top_n = top_n := by
    unfold effective_num_results
    simp
  have heff4 : effective_num_results
      { relax_constraints (normalize_constraints raw) with num_results := some top_n } top_n
      = top_n := by
    unfold effective_num_results
    simp
  unfold recommend_from_text
  dsimp only
  rw [hc2, hfilter, hrelax, hfilter2]
  by_cases hcn : (filter_recipes_by_constraints recipes (normalize_constraints raw)).length = 0
  · rw [if_pos hcn, if_pos hcn]
    by_cases hrel : 0 < (filter_recipes_by_constraints recipes
        (relax_constraints (normalize_constraints raw))).length
    · rw [if_pos hrel, if_pos hrel]
      exact recommend_rest_similar_congr recipes sim llm _ _ _ _ _ top_n
        (by rw [heffR, heff, heff4]) rfl
    · rw [if_neg hrel, if_neg hrel]
      rfl
  · rw [if_neg hcn, if_neg hcn]
    exact recommend_rest_similar_congr recipes sim llm _ _ _ _ _ top_n
      (by rw [heff, heff2]) rfl

theorem c10_witness :
    effective_num_results (normalize_constraints ({ num_results := some 0 } : Constraints)) 4 = 4
    ∧ (recommend_from_text [plainRecipe "a" 50] (fun _ => [1]) "ok"
        { num_results := some 0 } 4).map (fun r => r.similar_recipes)
      = (recommend_from_text [plainRecipe "a" 50] (fun _ => [1]) "ok"
          { ({ num_results := some 0 } : Constraints) with num_results := some 4 } 4).map
          (fun r => r.similar_recipes) :=
  c10_num_results_fallback [plainRecipe "a" 50] (fun _ => [1]) "ok"
    { num_results := some 0 } 4 (Or.inr rfl)

theorem c2_witness :
    (filter_recipes_by_constraints [plainRecipe "a" 50]
        (relax_constraints (normalize_constraints
          ({ cook_speed := some (.str "fast") } : Constraints))) ≠ [] →
      ∃ r, recommend_from_text [plainRecipe "a" 50] (fun _ => [1]) "ok"
            { cook_speed := some (.str "fast") } 5 = .ok r
        ∧ r.used_relaxation = true
        ∧ r.constraints = relax_constraints (normalize_constraints
            ({ cook_speed := some (.str "fast") } : Constraints))
        ∧ r.candidate_count = (filter_recipes_by_constraints [plainRecipe "a" 50]
            (relax_constraints (normalize_constraints
              ({ cook_speed := some (.str "fast") } : Constraints)))).length)
    ∧ (filter_recipes_by_constraints [plainRecipe "a" 50]
        (relax_constraints (normalize_constraints
          ({ cook_speed := some (.str "fast") } : Constraints))) = [] →
      recommend_from_text [plainRecipe "a" 50] (fun _ => [1]) "ok"
          { cook_speed := some (.str "fast") } 5 = .ok
        { constraints := normalize_constraints
            ({ cook_speed := some (.str "fast") } : Constraints),
          candidate_count := 0,
          anchor_recipe := none,
          similar_recipes := [],
          explanation := NO_RESULTS_MESSAGE,
          used_relaxation := false }) :=
  c2_relaxation_policy [plainRecipe "a" 50] (fun _ => [1]) "ok"
    { cook_speed := some (.str "fast") } 5 (by rfl)

theorem c9_witness :
    recommend_from_text [plainRecipe "a" 50] (fun _ => [1]) "ok"
      { cook_speed := some (.str "fast"), is_vegan := some true } 5 = .ok
      { constraints := normalize_constraints
          ({ cook_speed := some (.str "fast"), is_vegan := some true } : Constraints),
        candidate_count := 0,
        anchor_recipe := none,
        similar_recipes := [],
        explanation := NO_RESULTS_MESSAGE,
        used_relaxation := false } :=
  c9_failed_relaxation_not_reported [plainRecipe "a" 50] (fun _ => [1]) "ok"
    { cook_speed := some (.str "fast"), is_vegan := some true } 5 (by rfl) (by rfl)
/-- Dot product of two real feature rows (truncating at the shorter row;
the matrix rows all share one width). -/
noncomputable def dotl : List ℝ → List ℝ → ℝ
  | [], _ => 0
  | _, [] => 0
  | x :: xs, y :: ys => x * y + dotl xs ys

/-- Euclidean norm of a feature row. -/
noncomputable def l2norm (u : List ℝ) : ℝ := Real.sqrt (dotl u u)

/-- Real-number idealisation of `sklearn.metrics.pairwise.cosine_similarity`
on two feature rows (`similarity_engine.py` line 150): each row is
L2-normalised, with a zero norm replaced by 1 (the sklearn `normalize`
convention), and the normalised rows are dotted. -/
noncomputable def cosineSim (u v : List ℝ) : ℝ :=
  dotl u v
    / ((if l2norm u = 0 then 1 else l2norm u) * (if l2norm v = 0 then 1 else l2norm v))

theorem dotl_self_nonneg (u : List ℝ) : 0 ≤ dotl u u := by
  induction u with
  | nil => simp [dotl]
  | cons x xs ih =>
    show 0 ≤ x * x + dotl xs xs
    exact add_nonneg (mul_self_nonneg x) ih

theorem dotl_zero_left (u : List ℝ) : ∀ v : List ℝ, dotl u u = 0 → dotl u v = 0 := by
  induction u with
  | nil =>
    intro v _
    cases v <;> rfl
  | cons x xs ih =>
    intro v h
    have hsum : x * x + dotl xs xs = 0 := h
    have h1 : 0 ≤ x * x := mul_self_nonneg x
    have h2 : 0 ≤ dotl xs xs := dotl_self_nonneg xs
    have hx2 : x * x = 0 := by linarith
    have hx : x = 0 := mul_self_eq_zero.mp hx2
    have hxs : dotl xs xs = 0 := by linarith
    cases v with
    | nil => rfl
    | cons y ys =>
      show x * y + dotl xs ys = 0
      rw [hx, ih ys hxs]
      ring

theorem dotl_sq_le (u : List ℝ) : ∀ v : List ℝ, (dotl u v) ^ 2 ≤ dotl u u * dotl v v := by
  induction u with
  | nil =>
    intro v
    cases v with
    | nil => simp [dotl]
    | cons y ys => simp [dotl]
  | cons x xs ih =>
    intro v
    cases v with
    | nil =>
      show (dotl (x :: xs) []) ^ 2 ≤ dotl (x :: xs) (x :: xs) * 0
      show ((0 : ℝ)) ^ 2 ≤ dotl (x :: xs) (x :: xs) * 0
      simp
    | cons y ys =>
      have hA := dotl_self_nonneg xs
      have hB := dotl_self_nonneg ys
      have hS := ih ys
      show (x * y + dotl xs ys) ^ 2 ≤ (x * x + dotl xs xs) * (y * y + dotl ys ys)
      by_cases hA0 : dotl xs xs = 0
      · have hS0 : dotl xs ys = 0 := dotl_zero_left xs ys hA0
        rw [hA0, hS0]
        nlinarith [mul_nonneg (mul_self_nonneg x) hB]
      · have hApos : 0 < dotl xs xs := lt_of_le_of_ne hA (Ne.symm hA0)
        nlinarith [sq_nonneg (dotl xs xs * y - x * dotl xs ys),
          mul_nonneg (add_nonneg (mul_self_nonneg x) hA) (sub_nonneg.mpr hS), hApos]

theorem cosineSim_le_self (u v : List ℝ) : cosineSim u v ≤ cosineSim u u := by
  unfold cosineSim
  by_cases hu : l2norm u = 0
  · have huu : dotl u u = 0 := by
      have h1 := Real.sqrt_eq_zero'.mp hu
      have h2 := dotl_self_nonneg u
      linarith
    have huv : dotl u v = 0 := dotl_zero_left u v huu
    rw [hu] at *
    rw [huv, huu]
    simp
  · have hnn : 0 ≤ dotl u u := dotl_self_nonneg u
    have hsq : l2norm u ^ 2 = dotl u u := Real.sq_sqrt hnn
    have hupos : 0 < l2norm u :=
      lt_of_le_of_ne (Real.sqrt_nonneg _) (Ne.symm hu)
    rw [if_neg hu]
    have hself : dotl u u / (l2norm u * l2norm u) = 1 := by
      rw [← hsq]
      rw [pow_two]
      exact div_self (ne_of_gt (mul_pos hupos hupos))
    rw [hself]
    by_cases hv : l2norm v = 0
    · rw [if_pos hv]
      have hvv : dotl v v = 0 := by
        have h1 := Real.sqrt_eq_zero'.mp hv
        have h2 := dotl_self_nonneg v
        linarith
      have hcs := dotl_sq_le u v
      rw [hvv] at hcs
      have huv : dotl u v = 0 := by nlinarith [hcs, sq_nonneg (dotl u v)]
      rw [huv]
      simp
    · rw [if_neg hv]
      have hvpos : 0 < l2norm v :=
        lt_of_le_of_ne (Real.sqrt_nonneg _) (Ne.symm hv)
      rw [div_le_one (mul_pos hupos hvpos)]
      have hcs := dotl_sq_le u v
      have hvsq : l2norm v ^ 2 = dotl v v := Real.sq_sqrt (dotl_self_nonneg v)
      nlinarith [hcs, hsq, hvsq, mul_pos hupos hvpos,
        sq_nonneg (dotl u v - l2norm u * l2norm v),
        sq_nonneg (dotl u v + l2norm u * l2norm v)]

/-- C8: reflexive maximality of the cosine score: for any rows of any real
feature matrix (in particular the combined TF-IDF + weighted-numeric matrix,
whatever external dataset it is built from), the cosine similarity of a row with
itself is greater than or equal to its cosine similarity with every row,
real arithmetic standing in for floating point. -/
theorem c8_cosine_self_is_max (rows : List (List ℝ)) (i j : Nat) :
    cosineSim (rows.getD i []) (rows.getD j [])
      ≤ cosineSim (rows.getD i []) (rows.getD i []) :=
  cosineSim_le_self (rows.getD i []) (rows.getD j [])
